import Mathlib

/-!
# QuestGear3DStudio — verification of the reconstruction core

Shallow embedding of the geometric reconstruction core of the
QuestGear3DStudio repository:

* `modules/quest_reconstruction_utils.py` — coordinate-system transforms
  (`Transforms.convert_coordinate_system`), depth linearization
  (`compute_ndc_to_linear_depth_params`, `to_linear_depth`,
  `convert_depth_to_linear`), intrinsics from FOV tangents
  (`compute_depth_camera_params`);
* `modules/quest_reconstruction_pipeline.py` — the orchestrator
  (`QuestReconstructionPipeline.run_reconstruction`,
  `get_camera_intrinsics`) and the camera-pose assembly it performs.

Modelling conventions:

* Python / NumPy floating point is modelled by `PyFloat`: exact rational
  arithmetic extended with `nan`, `pinf` (+∞) and `ninf` (−∞), following
  IEEE-754 special-value rules.  Rounding and overflow of finite values
  are not modelled (finite arithmetic is exact); NaN/Inf propagation,
  comparisons with NaN, and Python's `ZeroDivisionError` on float
  division by zero are modelled faithfully.
* NumPy arrays are modelled by `NpArray`: a shape, a dtype tag, and the
  flat list of element values.  Elementwise NumPy operations map over
  the data and keep the shape; `astype` sets the dtype tag.
* scipy's quaternion ↔ rotation-matrix conversions are modelled at the
  rotation-matrix level: a pose's rotation is carried as its 3×3 matrix,
  and `R.from_quat(...).as_matrix()` / `R.from_matrix(...).as_quat()`
  round-trips are the identity on the represented rotation (exact for
  the orthogonal matrices produced by the code paths modelled here).
  `quatToMatrix` is the explicit unit-quaternion → matrix map used where
  a claim quantifies over quaternions.
* Matrices are `Matrix (Fin n) (Fin n) ℚ` over exact rationals, so the
  1e-6 floating-point tolerances in the spec are subsumed by exact
  equality.
-/

namespace Quest

/-! ## Python/NumPy float values -/

/-- A Python/NumPy double: a finite rational, `nan`, `+inf` or `-inf`.
Finite arithmetic is exact (no rounding/overflow). -/
inductive PyFloat where
  | nan : PyFloat
  | pinf : PyFloat
  | ninf : PyFloat
  | fin (q : ℚ) : PyFloat
deriving DecidableEq, Repr

/-- The only Python exception the embedded code can raise:
`ZeroDivisionError` from float division by exact zero. -/
inductive PyErr where
  | zeroDivisionError : PyErr
deriving DecidableEq, Repr

namespace PyFloat

/-- `np.isinf` / `math.isinf`. -/
def isinf : PyFloat → Bool
  | pinf => true
  | ninf => true
  | _ => false

/-- A value that is neither NaN nor ±Inf. -/
def isFiniteB : PyFloat → Bool
  | fin _ => true
  | _ => false

/-- IEEE `<` comparison (any comparison with NaN is false). -/
def ltB : PyFloat → PyFloat → Bool
  | nan, _ => false
  | _, nan => false
  | ninf, ninf => false
  | ninf, _ => true
  | _, ninf => false
  | pinf, _ => false
  | fin _, pinf => true
  | fin a, fin b => decide (a < b)

/-- IEEE negation. -/
def neg : PyFloat → PyFloat
  | nan => nan
  | pinf => ninf
  | ninf => pinf
  | fin q => fin (-q)

/-- IEEE addition (`inf + (-inf) = nan`). -/
def add : PyFloat → PyFloat → PyFloat
  | nan, _ => nan
  | _, nan => nan
  | pinf, ninf => nan
  | ninf, pinf => nan
  | pinf, _ => pinf
  | _, pinf => pinf
  | ninf, _ => ninf
  | _, ninf => ninf
  | fin a, fin b => fin (a + b)

/-- IEEE subtraction. -/
def sub (a b : PyFloat) : PyFloat := add a (neg b)

/-- IEEE multiplication (`inf * 0 = nan`). -/
def mul : PyFloat → PyFloat → PyFloat
  | nan, _ => nan
  | _, nan => nan
  | pinf, pinf => pinf
  | pinf, ninf => ninf
  | ninf, pinf => ninf
  | ninf, ninf => pinf
  | pinf, fin b => if 0 < b then pinf else if b < 0 then ninf else nan
  | ninf, fin b => if 0 < b then ninf else if b < 0 then pinf else nan
  | fin a, pinf => if 0 < a then pinf else if a < 0 then ninf else nan
  | fin a, ninf => if 0 < a then ninf else if a < 0 then pinf else nan
  | fin a, fin b => fin (a * b)

/-- NumPy-style total division: division by exact zero yields
±Inf/NaN instead of raising (used only where the code's `where=` guard
already rules out a zero divisor). -/
def npDiv : PyFloat → PyFloat → PyFloat
  | nan, _ => nan
  | _, nan => nan
  | pinf, pinf => nan
  | pinf, ninf => nan
  | ninf, pinf => nan
  | ninf, ninf => nan
  | pinf, fin b => if b < 0 then ninf else pinf
  | ninf, fin b => if b < 0 then pinf else ninf
  | fin _, pinf => fin 0
  | fin _, ninf => fin 0
  | fin a, fin b =>
    if b = 0 then (if a = 0 then nan else if 0 < a then pinf else ninf)
    else fin (a / b)

/-- Python float division: raises `ZeroDivisionError` on an exact-zero
divisor, otherwise IEEE division. -/
def pyDiv (a b : PyFloat) : Except PyErr PyFloat :=
  if b = fin 0 then .error .zeroDivisionError else .ok (npDiv a b)

end PyFloat

/-! ## NumPy arrays -/

/-- NumPy floating dtypes (the depth buffers the code handles are
floating-point arrays). -/
inductive DType where
  | float16 : DType
  | float32 : DType
  | float64 : DType
deriving DecidableEq, Repr

/-- A NumPy array: shape, dtype tag, and the flat element list. -/
structure NpArray where
  shape : List Nat
  dtype : DType
  data : List PyFloat
deriving DecidableEq, Repr

/-! ## Depth linearization (`quest_reconstruction_utils.py`, lines 121-148) -/

/-- `compute_ndc_to_linear_depth_params(near, far)`:
if `np.isinf(far) or far < near` then `(-2.0 * near, -1.0)` else
`(-2.0 * far * near / (far - near), -(far + near) / (far - near))`.
The divisions are Python float divisions and raise `ZeroDivisionError`
when `far - near` is exactly zero. -/
def compute_ndc_to_linear_depth_params (near far : PyFloat) :
    Except PyErr (PyFloat × PyFloat) :=
  if far.isinf || PyFloat.ltB far near then
    .ok (PyFloat.mul (.fin (-2)) near, .fin (-1))
  else do
    let den := PyFloat.sub far near
    let x ← PyFloat.pyDiv (PyFloat.mul (PyFloat.mul (.fin (-2)) far) near) den
    let y ← PyFloat.pyDiv (PyFloat.neg (PyFloat.add far near)) den
    return (x, y)

/-- The per-sample denominator of `to_linear_depth`:
`ndc + y` with `ndc = d * 2.0 - 1.0`. -/
def ndcDenom (d y : PyFloat) : PyFloat :=
  PyFloat.add (PyFloat.sub (PyFloat.mul d (.fin 2)) (.fin 1)) y

/-- One sample of `np.divide(x, denom, out=np.zeros_like(d), where=denom != 0)`:
entries where the denominator is exactly zero take the value `0` from
`out`; all other entries (including NaN denominators, for which
`denom != 0` is true) are divided. -/
def npDivWhere (x denom : PyFloat) : PyFloat :=
  if denom = .fin 0 then .fin 0 else PyFloat.npDiv x denom

/-- `to_linear_depth(d, x, y)` (elementwise over the buffer). -/
def to_linear_depth (d : NpArray) (x y : PyFloat) : NpArray :=
  { d with data := d.data.map fun v => npDivWhere x (ndcDenom v y) }

/-- One entry of `np.nan_to_num(·, nan=0.0, posinf=1.0, neginf=0.0)`. -/
def nanToNumIn : PyFloat → PyFloat
  | .nan => .fin 0
  | .pinf => .fin 1
  | .ninf => .fin 0
  | .fin q => .fin q

/-- One entry of `np.clip(·, 0.0, 1.0)` (NaN propagates; ±Inf clamp). -/
def clipUnit : PyFloat → PyFloat
  | .nan => .nan
  | .pinf => .fin 1
  | .ninf => .fin 0
  | .fin q => .fin (max 0 (min q 1))

/-- One entry of the output sanitization
`np.nan_to_num(·, nan=0.0, posinf=0.0, neginf=0.0)`. -/
def nanToNumOut : PyFloat → PyFloat
  | .nan => .fin 0
  | .pinf => .fin 0
  | .ninf => .fin 0
  | .fin q => .fin q

/-- One entry of `depth_array[depth_array < 0] = 0.0` (IEEE `<`, so NaN
entries are left alone — they are already gone at this point). -/
def negClamp (v : PyFloat) : PyFloat :=
  if PyFloat.ltB v (.fin 0) then .fin 0 else v

/-- `convert_depth_to_linear(depth_buffer, near, far)`:
sanitize the input (`nan_to_num` then `clip` to [0,1]), compute the
`(x, y)` coefficients (which can raise `ZeroDivisionError`), apply
`to_linear_depth`, sanitize the output (`nan_to_num`, clamp negatives
to 0) and cast to `float32`. -/
def convert_depth_to_linear (depth_buffer : NpArray) (near far : PyFloat) :
    Except PyErr NpArray :=
  let depth_clamped : NpArray :=
    { depth_buffer with data := depth_buffer.data.map fun v => clipUnit (nanToNumIn v) }
  match compute_ndc_to_linear_depth_params near far with
  | .error e => .error e
  | .ok (x, y) =>
    let depth_array := to_linear_depth depth_clamped x y
    let sanitized : NpArray :=
      { depth_array with data := depth_array.data.map fun v => negClamp (nanToNumOut v) }
    .ok { sanitized with dtype := .float32 }

/-- An entry that is finite and non-negative. -/
def entryFiniteNonneg : PyFloat → Bool
  | .fin q => decide (0 ≤ q)
  | _ => false

/-- An `Except`-wrapped array all of whose entries are finite and ≥ 0
(false when the computation raised). -/
def resultEntriesOk : Except PyErr NpArray → Bool
  | .ok a => a.data.all entryFiniteNonneg
  | .error _ => false

/-- An `Except`-wrapped array all of whose entries are finite, i.e.
never NaN and never ±Inf (false when the computation raised). -/
def resultEntriesFinite : Except PyErr NpArray → Bool
  | .ok a => a.data.all PyFloat.isFiniteB
  | .error _ => false

/-- An `Except`-wrapped array of the given shape with dtype `float32`
(false when the computation raised). -/
def resultShapeFloat32 (r : Except PyErr NpArray) (s : List Nat) : Bool :=
  match r with
  | .ok a => decide (a.shape = s) && decide (a.dtype = DType.float32)
  | .error _ => false

/-! ## Coordinate system transforms (`quest_reconstruction_utils.py`, lines 6-109)

The Python class operates on `(N, 3)` position and `(N, 4)` quaternion
arrays, applying the same per-pose map to each row.  The embedding
carries a single pose: position as `Fin 3 → ℚ` and rotation as its 3×3
matrix (quaternion ↔ matrix conversions are the identity on the
represented rotation, see the file header). -/

/-- Assemble a homogeneous 4×4 matrix from a 3×3 rotation block and a
translation column (`H[:3, :3] = R; H[:3, 3] = t`; last row `0 0 0 1`). -/
def homog (R : Matrix (Fin 3) (Fin 3) ℚ) (t : Fin 3 → ℚ) : Matrix (Fin 4) (Fin 4) ℚ :=
  Matrix.of
    ![![R 0 0, R 0 1, R 0 2, t 0],
      ![R 1 0, R 1 1, R 1 2, t 1],
      ![R 2 0, R 2 1, R 2 2, t 2],
      ![0, 0, 0, 1]]

/-- `CoordinateSystem` enum. -/
inductive CoordinateSystem where
  | UNITY : CoordinateSystem
  | OPEN3D : CoordinateSystem
  | COLMAP : CoordinateSystem
deriving DecidableEq, Repr

/-- The world-basis matrix of the inner `basis` function of
`get_coordinate_transform_matrix`: identity for Unity,
`diag(1, 1, -1)` for Open3D, `diag(1, -1, 1)` for COLMAP. -/
def basis : CoordinateSystem → Matrix (Fin 3) (Fin 3) ℚ
  | .UNITY => 1
  | .OPEN3D => Matrix.diagonal ![1, 1, -1]
  | .COLMAP => Matrix.diagonal ![1, -1, 1]

/-- A single pose tagged with its coordinate system — the `Transforms`
dataclass specialized to one `(position, rotation)` row. -/
structure Transforms where
  coordinate_system : CoordinateSystem
  positions : Fin 3 → ℚ
  rotations : Matrix (Fin 3) (Fin 3) ℚ
deriving DecidableEq

namespace Transforms

/-- `get_coordinate_transform_matrix(source, target) = basis(target) @ basis(source).T`. -/
def get_coordinate_transform_matrix (source target : CoordinateSystem) :
    Matrix (Fin 3) (Fin 3) ℚ :=
  basis target * (basis source).transpose

/-- `get_camera_basis_matrix`: identity for Unity and COLMAP,
`diag(1, -1, -1)` for Open3D. -/
def get_camera_basis_matrix : CoordinateSystem → Matrix (Fin 3) (Fin 3) ℚ
  | .UNITY => 1
  | .OPEN3D => Matrix.diagonal ![1, -1, -1]
  | .COLMAP => 1

/-- `convert_coordinate_system(target, is_camera)`: returns `self` when
already in the target system; otherwise applies
`R_conv = get_coordinate_transform_matrix(source, target)` to the
position, conjugates the rotation by `R_conv`, and — only when
`is_camera` — right-multiplies by the source camera basis transpose
before and by the target camera basis after the conjugation. -/
def convert_coordinate_system (t : Transforms)
    (target_coordinate_system : CoordinateSystem) (is_camera : Bool) : Transforms :=
  if t.coordinate_system = target_coordinate_system then t
  else
    let R_conv := get_coordinate_transform_matrix t.coordinate_system target_coordinate_system
    let converted_positions := R_conv.mulVec t.positions
    let rotation_matrices :=
      if is_camera then t.rotations * (get_camera_basis_matrix t.coordinate_system).transpose
      else t.rotations
    let conjugated := R_conv * rotation_matrices * R_conv.transpose
    let converted_rotations :=
      if is_camera then conjugated * get_camera_basis_matrix target_coordinate_system
      else conjugated
    { coordinate_system := target_coordinate_system
      positions := converted_positions
      rotations := converted_rotations }

/-- The camera-to-world 4×4 matrix `extrinsics_cw` assembles from a
pose: rotation in the upper-left block, position in the last column. -/
def extrinsics_cw (t : Transforms) : Matrix (Fin 4) (Fin 4) ℚ :=
  homog t.rotations t.positions

end Transforms

/-- The rotation matrix scipy's `R.from_quat([x, y, z, w]).as_matrix()`
produces for a unit quaternion (scipy normalizes first; under the
unit-norm hypothesis the normalization is the identity). -/
def quatToMatrix (x y z w : ℚ) : Matrix (Fin 3) (Fin 3) ℚ :=
  Matrix.of
    ![![1 - 2 * (y ^ 2 + z ^ 2), 2 * (x * y - z * w), 2 * (x * z + y * w)],
      ![2 * (x * y + z * w), 1 - 2 * (x ^ 2 + z ^ 2), 2 * (y * z - x * w)],
      ![2 * (x * z - y * w), 2 * (y * z + x * w), 1 - 2 * (x ^ 2 + y ^ 2)]]

/-! ## Camera intrinsics resolution
(`quest_reconstruction_utils.py` lines 113-119,
`quest_reconstruction_pipeline.py` lines 43-84) -/

/-- `compute_depth_camera_params(left, right, top, bottom, width, height)`:
`fx = width / (right + left)`, `fy = height / (top + bottom)`,
`cx = width * right / (right + left)`, `cy = height * top / (top + bottom)`.
Python float division raises `ZeroDivisionError` on a zero denominator
(`fx` is computed first, then `fy`, `cx`, `cy`). -/
def compute_depth_camera_params (left right top bottom width height : ℚ) :
    Except PyErr (ℚ × ℚ × ℚ × ℚ) :=
  if right + left = 0 then .error .zeroDivisionError
  else if top + bottom = 0 then .error .zeroDivisionError
  else .ok (width / (right + left), height / (top + bottom),
            width * right / (right + left), height * top / (top + bottom))

/-- The `depth_info` dict as `get_camera_intrinsics` reads it: the six
values `depth_info.get(key, 0)` for width/height and the four FOV
tangents (an absent key is the default `0`). -/
structure DepthInfo where
  width : ℚ
  height : ℚ
  fov_left : ℚ
  fov_right : ℚ
  fov_top : ℚ
  fov_down : ℚ

/-- The per-camera `camera_metadata[camera]['intrinsics']` dict:
optional stored `fx`/`fy`/`cx`/`cy` (hard-coded defaults 867/867/640/640
apply when absent). -/
structure CameraMeta where
  fx : Option ℚ
  fy : Option ℚ
  cx : Option ℚ
  cy : Option ℚ

/-- `QuestReconstructionPipeline.get_camera_intrinsics(camera, depth_info)`:
start from `fx = fy = cx = cy = 0`; when `depth_info` is present and its
width and height are positive, take the FOV-tangent values from
`compute_depth_camera_params`; when the resulting `fx` is still `0`,
fall back to the per-camera metadata (or the 867/867/640/640 defaults);
assemble the 3×3 intrinsics matrix `[[fx, 0, cx], [0, fy, cy], [0, 0, 1]]`. -/
def get_camera_intrinsics (meta : CameraMeta) (depth_info : Option DepthInfo) :
    Except PyErr (Matrix (Fin 3) (Fin 3) ℚ) := do
  let quad ←
    match depth_info with
    | some di =>
      if 0 < di.width ∧ 0 < di.height then
        compute_depth_camera_params di.fov_left di.fov_right di.fov_top di.fov_down
          di.width di.height
      else pure (0, 0, 0, 0)
    | none => pure ((0 : ℚ), (0 : ℚ), (0 : ℚ), (0 : ℚ))
  let (fx, fy, cx, cy) := quad
  let (fx, fy, cx, cy) :=
    if fx = 0 then (meta.fx.getD 867, meta.fy.getD 867, meta.cx.getD 640, meta.cy.getD 640)
    else (fx, fy, cx, cy)
  return Matrix.of ![![fx, 0, cx], ![0, fy, cy], ![0, 0, 1]]

/-! ## The orchestrator's camera-pose computation
(`quest_reconstruction_pipeline.py` lines 223-243)

Per frame and camera the loop builds `head_T` from the frame's pose and
multiplies by the pre-computed head-to-camera offset `H`, wraps the
product's translation/rotation in a `Transforms` tagged `UNITY`,
converts to `OPEN3D` (note: with the default `is_camera=False`), and
reads back the camera-to-world matrix `extrinsics_cw[0]`.  Rotations
are carried as matrices; the scipy quaternion round-trips in between
are the identity on the represented rotation. -/

/-- Upper-left 3×3 block of a 4×4 matrix. -/
def rotOf (M : Matrix (Fin 4) (Fin 4) ℚ) : Matrix (Fin 3) (Fin 3) ℚ :=
  Matrix.of
    ![![M 0 0, M 0 1, M 0 2],
      ![M 1 0, M 1 1, M 1 2],
      ![M 2 0, M 2 1, M 2 2]]

/-- Translation column (first three entries of the last column) of a
4×4 matrix. -/
def transOf (M : Matrix (Fin 4) (Fin 4) ℚ) : Fin 3 → ℚ :=
  ![M 0 3, M 1 3, M 2 3]

/-- `final_pose_open3d` as `run_reconstruction` computes it from the
head pose `(head_R, head_pos)` and the head-to-camera offset
`(off_R, off_t)`:
`unity_camera_pose = head_T @ extrinsics_map_unity[cam]`, then
`convert_coordinate_system(OPEN3D)` — the `is_camera` argument is left
at its default `False` — then `extrinsics_cw[0]`. -/
def pipelineFinalPose (head_R : Matrix (Fin 3) (Fin 3) ℚ) (head_pos : Fin 3 → ℚ)
    (off_R : Matrix (Fin 3) (Fin 3) ℚ) (off_t : Fin 3 → ℚ) :
    Matrix (Fin 4) (Fin 4) ℚ :=
  let unity_camera_pose := homog head_R head_pos * homog off_R off_t
  let unity_transform : Transforms :=
    { coordinate_system := .UNITY
      positions := transOf unity_camera_pose
      rotations := rotOf unity_camera_pose }
  (unity_transform.convert_coordinate_system .OPEN3D false).extrinsics_cw

/-- The same computation with the camera-pose conversion rule
(`is_camera=True`), i.e. what the claim says the orchestrator does. -/
def cameraRuleFinalPose (head_R : Matrix (Fin 3) (Fin 3) ℚ) (head_pos : Fin 3 → ℚ)
    (off_R : Matrix (Fin 3) (Fin 3) ℚ) (off_t : Fin 3 → ℚ) :
    Matrix (Fin 4) (Fin 4) ℚ :=
  let unity_camera_pose := homog head_R head_pos * homog off_R off_t
  let unity_transform : Transforms :=
    { coordinate_system := .UNITY
      positions := transOf unity_camera_pose
      rotations := rotOf unity_camera_pose }
  (unity_transform.convert_coordinate_system .OPEN3D true).extrinsics_cw

/-- Following the spec's words for the generic-pose rule (§4.1): world
transform `R_conv = Basis(target) · Basis(source)ᵀ`; new position
`R_conv · position`; rotation `R_conv · R · R_convᵀ` — applied to the
camera-to-world pose `headToWorld · headToCameraOffset`, whose rotation
is `head_R · off_R` and whose translation is `head_R · off_t + head_pos`. -/
def genericRulePoseSpec (head_R : Matrix (Fin 3) (Fin 3) ℚ) (head_pos : Fin 3 → ℚ)
    (off_R : Matrix (Fin 3) (Fin 3) ℚ) (off_t : Fin 3 → ℚ) :
    Matrix (Fin 4) (Fin 4) ℚ :=
  let C := Transforms.get_coordinate_transform_matrix .UNITY .OPEN3D
  homog (C * (head_R * off_R) * C.transpose) (C.mulVec (head_R.mulVec off_t + head_pos))

/-! ## The orchestrator loop (`quest_reconstruction_pipeline.py` lines 131-323)

The loop is modelled in single-camera mode with `frame_interval=1`,
`start_frame=0`, `end_frame=None` (so the processed list is the full
frame list), Open3D available, and all callbacks present.  Each
frame-camera unit is abstracted to the two facts the loop branches on:
whether `process_quest_frame` returned both an RGB and a depth payload,
and the entries of the converted pose `final_pose_open3d` (whose
computation is modelled separately by `pipelineFinalPose`).  The
observables are the integrate calls, the processed/failed counters, the
progress-callback values, whether `extract_mesh` ran, and the returned
result. -/

/-- One frame-camera unit as the loop body sees it. -/
structure FrameUnit where
  payload : Bool
  finalPose : List PyFloat
deriving DecidableEq, Repr

/-- `not (np.any(np.isnan(pose)) or np.any(np.isinf(pose)))`:
every pose entry is finite. -/
def poseFinite (pose : List PyFloat) : Bool :=
  pose.all PyFloat.isFiniteB

/-- `int((i + 1) / total_processing * 100)`: the exact value is
non-negative, so `int` truncation is the floor, i.e. Nat division. -/
def pct (i total : Nat) : Nat :=
  (i + 1) * 100 / total

/-- Mutable loop state: integrate-call indices (in call order), the
`processed_count` and `failed_count` counters, and the values passed to
`on_progress`. -/
structure RunState where
  integrated : List Nat
  processed : Nat
  failed : Nat
  progress : List Nat
deriving DecidableEq, Repr

/-- Initial loop state. -/
def initState : RunState :=
  { integrated := [], processed := 0, failed := 0, progress := [] }

/-- The per-unit body: missing payload increments `failed_count` and
continues; an invalid pose is rejected — silently, with no counter
update — only inside the debug block guarded by
`i < 20 or (i % 10 == 0)`; otherwise `integrate_frame` is called and
`processed_count` incremented. -/
def stepUnit (u : FrameUnit) (i : Nat) (st : RunState) : RunState :=
  if u.payload = false then { st with failed := st.failed + 1 }
  else if (i < 20 ∨ i % 10 = 0) ∧ poseFinite u.finalPose = false then st
  else { st with integrated := st.integrated ++ [i], processed := st.processed + 1 }

/-- Whether the loop body at index `i` reaches the `integrate_frame`
call for unit `u`: the payload must be present, and the unit must not
be caught by the debug-block pose validation (which fires only when
`i < 20 or i % 10 == 0` and the pose has a NaN/Inf entry). -/
def integratesAt (u : FrameUnit) (i : Nat) : Bool :=
  if u.payload = false then false
  else if (i < 20 ∨ i % 10 = 0) ∧ poseFinite u.finalPose = false then false
  else true

/-- The frame loop: poll `is_cancelled` (returning immediately with the
cancelled flag when it fires), emit the progress percentage, run the
unit body, recurse.  Returns the final state and whether the loop was
cancelled. -/
def runFrames (cancel : Nat → Bool) (total : Nat) :
    List FrameUnit → Nat → RunState → RunState × Bool
  | [], _, st => (st, false)
  | u :: rest, i, st =>
    if cancel i then (st, true)
    else
      let st1 : RunState := { st with progress := st.progress ++ [pct i total] }
      runFrames cancel total rest (i + 1) (stepUnit u i st1)

/-- The observables of one `run_reconstruction` call. -/
structure RunResult where
  integrated : List Nat
  processed : Nat
  failed : Nat
  progress : List Nat
  extracted : Bool
  result : Option (Nat × Nat)
deriving DecidableEq, Repr

/-- `run_reconstruction`: run the loop; on cancellation return `None`
without extracting a mesh; otherwise call `extract_mesh` and return the
result record (keeping its processed/failed counts as observables). -/
def run_reconstruction (cancel : Nat → Bool) (frames : List FrameUnit) : RunResult :=
  let out := runFrames cancel frames.length frames 0 initState
  if out.2 then
    { integrated := out.1.integrated, processed := out.1.processed,
      failed := out.1.failed, progress := out.1.progress,
      extracted := false, result := none }
  else
    { integrated := out.1.integrated, processed := out.1.processed,
      failed := out.1.failed, progress := out.1.progress,
      extracted := true, result := some (out.1.processed, out.1.failed) }

/-! ## Theorems -/

/-- The conversion matrices of opposite direction multiply to the
identity (all world bases are ±1 diagonal). -/
theorem coordT_mul_cancel (s t : CoordinateSystem) :
    Transforms.get_coordinate_transform_matrix s t *
      Transforms.get_coordinate_transform_matrix t s = 1 := by
  cases s <;> cases t <;>
    · ext i j
      fin_cases i <;> fin_cases j <;>
        norm_num [Transforms.get_coordinate_transform_matrix, basis, Matrix.mul_apply,
          Fin.sum_univ_three, Matrix.diagonal, Matrix.one_apply, Matrix.transpose_apply,
          Fin.ext_iff]

/-- Transposing a conversion matrix reverses its direction. -/
theorem coordT_transpose (s t : CoordinateSystem) :
    (Transforms.get_coordinate_transform_matrix s t).transpose =
      Transforms.get_coordinate_transform_matrix t s := by
  cases s <;> cases t <;>
    · ext i j
      fin_cases i <;> fin_cases j <;>
        norm_num [Transforms.get_coordinate_transform_matrix, basis,
          Matrix.diagonal, Matrix.one_apply, Matrix.transpose_apply, Matrix.mul_apply,
          Fin.sum_univ_three, Fin.ext_iff]

/-- Camera-basis matrices are symmetric. -/
theorem camB_transpose (c : CoordinateSystem) :
    (Transforms.get_camera_basis_matrix c).transpose =
      Transforms.get_camera_basis_matrix c := by
  cases c <;>
    · ext i j
      fin_cases i <;> fin_cases j <;>
        norm_num [Transforms.get_camera_basis_matrix, Matrix.diagonal, Matrix.one_apply,
          Matrix.transpose_apply, Fin.ext_iff]

/-- Camera-basis matrices are involutive. -/
theorem camB_mul_cancel (c : CoordinateSystem) :
    Transforms.get_camera_basis_matrix c * Transforms.get_camera_basis_matrix c = 1 := by
  cases c <;>
    · ext i j
      fin_cases i <;> fin_cases j <;>
        norm_num [Transforms.get_camera_basis_matrix, Matrix.mul_apply,
          Fin.sum_univ_three, Matrix.diagonal, Matrix.one_apply, Fin.ext_iff]

/-- Left-cancellation form of `coordT_mul_cancel`. -/
theorem coordT_mul_cancel_left (s t : CoordinateSystem)
    (M : Matrix (Fin 3) (Fin 3) ℚ) :
    Transforms.get_coordinate_transform_matrix s t *
      (Transforms.get_coordinate_transform_matrix t s * M) = M := by
  rw [← Matrix.mul_assoc, coordT_mul_cancel, Matrix.one_mul]

/-- Left-cancellation form of `camB_mul_cancel`. -/
theorem camB_mul_cancel_left (c : CoordinateSystem) (M : Matrix (Fin 3) (Fin 3) ℚ) :
    Transforms.get_camera_basis_matrix c * (Transforms.get_camera_basis_matrix c * M) = M := by
  rw [← Matrix.mul_assoc, camB_mul_cancel, Matrix.one_mul]

/-- Evaluation of `convert_coordinate_system` on an explicit pose in
generic-pose mode, when the systems differ. -/
theorem convert_mk_false (s t : CoordinateSystem) (h : s ≠ t) (p : Fin 3 → ℚ)
    (M : Matrix (Fin 3) (Fin 3) ℚ) :
    Transforms.convert_coordinate_system ⟨s, p, M⟩ t false =
      ⟨t, (Transforms.get_coordinate_transform_matrix s t).mulVec p,
        Transforms.get_coordinate_transform_matrix s t * M *
          (Transforms.get_coordinate_transform_matrix s t).transpose⟩ := by
  simp [Transforms.convert_coordinate_system, h]

/-- Evaluation of `convert_coordinate_system` on an explicit pose in
camera-pose mode, when the systems differ. -/
theorem convert_mk_true (s t : CoordinateSystem) (h : s ≠ t) (p : Fin 3 → ℚ)
    (M : Matrix (Fin 3) (Fin 3) ℚ) :
    Transforms.convert_coordinate_system ⟨s, p, M⟩ t true =
      ⟨t, (Transforms.get_coordinate_transform_matrix s t).mulVec p,
        Transforms.get_coordinate_transform_matrix s t *
            (M * (Transforms.get_camera_basis_matrix s).transpose) *
            (Transforms.get_coordinate_transform_matrix s t).transpose *
          Transforms.get_camera_basis_matrix t⟩ := by
  simp [Transforms.convert_coordinate_system, h]

/-- Round trip of `convert_coordinate_system` at the rotation-matrix
level, for any rotation payload. -/
theorem convert_roundtrip_mat (A B : CoordinateSystem) (ic : Bool) (p : Fin 3 → ℚ)
    (M : Matrix (Fin 3) (Fin 3) ℚ) (hAB : A ≠ B) :
    Transforms.convert_coordinate_system
      (Transforms.convert_coordinate_system ⟨A, p, M⟩ B ic) A ic = ⟨A, p, M⟩ := by
  have hBA : B ≠ A := fun h => hAB h.symm
  cases ic
  · rw [convert_mk_false A B hAB, convert_mk_false B A hBA]
    refine congrArg₂ (Transforms.mk A) ?_ ?_
    · rw [Matrix.mulVec_mulVec, coordT_mul_cancel, Matrix.one_mulVec]
    · simp only [coordT_transpose, Matrix.mul_assoc, coordT_mul_cancel_left,
        coordT_mul_cancel, Matrix.mul_one]
  · rw [convert_mk_true A B hAB, convert_mk_true B A hBA]
    refine congrArg₂ (Transforms.mk A) ?_ ?_
    · rw [Matrix.mulVec_mulVec, coordT_mul_cancel, Matrix.one_mulVec]
    · simp only [coordT_transpose, camB_transpose, Matrix.mul_assoc,
        coordT_mul_cancel_left, camB_mul_cancel_left, coordT_mul_cancel,
        camB_mul_cancel, Matrix.mul_one]

/-- C1: for every position and unit quaternion, every ordered pair of
distinct coordinate systems `A ≠ B` among {UNITY, OPEN3D, COLMAP}, and
both the generic-pose and the camera-pose mode, converting A→B and then
B→A with `Transforms.convert_coordinate_system` returns the original
position and a rotation equal to the one the original quaternion
represents (exact equality over ℚ subsumes the 1e-6 tolerance; equality
of the rotation matrices is exactly "a quaternion representing the
original rotation", since `as_quat` is determined by the matrix up to
sign). -/
theorem C1_convert_roundtrip (A B : CoordinateSystem) (ic : Bool) (p : Fin 3 → ℚ)
    (x y z w : ℚ) (hq : x ^ 2 + y ^ 2 + z ^ 2 + w ^ 2 = 1) (hAB : A ≠ B) :
    Transforms.convert_coordinate_system
      (Transforms.convert_coordinate_system ⟨A, p, quatToMatrix x y z w⟩ B ic) A ic
      = ⟨A, p, quatToMatrix x y z w⟩ :=
  convert_roundtrip_mat A B ic p (quatToMatrix x y z w) hAB

/-- Witness for C1 at a concrete input: Unity→Open3D→Unity in camera
mode, position (1, 2, 3), identity quaternion (0, 0, 0, 1). -/
theorem C1_convert_roundtrip_witness :
    (CoordinateSystem.UNITY ≠ CoordinateSystem.OPEN3D) ∧
      ((0 : ℚ) ^ 2 + 0 ^ 2 + 0 ^ 2 + 1 ^ 2 = 1) ∧
      Transforms.convert_coordinate_system
        (Transforms.convert_coordinate_system
          ⟨.UNITY, ![1, 2, 3], quatToMatrix 0 0 0 1⟩ .OPEN3D true) .UNITY true
        = ⟨.UNITY, ![1, 2, 3], quatToMatrix 0 0 0 1⟩ :=
  ⟨by decide, by norm_num,
    C1_convert_roundtrip .UNITY .OPEN3D true ![1, 2, 3] 0 0 0 1 (by norm_num) (by decide)⟩

/-- The rotation block of a product of homogeneous matrices is the
product of the rotation blocks. -/
theorem rotOf_homog_mul (R1 : Matrix (Fin 3) (Fin 3) ℚ) (t1 : Fin 3 → ℚ)
    (R2 : Matrix (Fin 3) (Fin 3) ℚ) (t2 : Fin 3 → ℚ) :
    rotOf (homog R1 t1 * homog R2 t2) = R1 * R2 := by
  ext i j
  fin_cases i <;> fin_cases j <;>
    simp [rotOf, homog, Matrix.mul_apply, Fin.sum_univ_four, Fin.sum_univ_three]

/-- The translation column of a product of homogeneous matrices is
`R1 · t2 + t1`. -/
theorem transOf_homog_mul (R1 : Matrix (Fin 3) (Fin 3) ℚ) (t1 : Fin 3 → ℚ)
    (R2 : Matrix (Fin 3) (Fin 3) ℚ) (t2 : Fin 3 → ℚ) :
    transOf (homog R1 t1 * homog R2 t2) = R1.mulVec t2 + t1 := by
  funext i
  fin_cases i <;>
    simp [transOf, homog, Matrix.mul_apply, Matrix.mulVec, Matrix.dotProduct,
      Fin.sum_univ_four, Fin.sum_univ_three]

/-- Counterexample to C3: at the identity head pose and identity
head-to-camera offset, the pose the orchestrator computes (with the
generic-pose rule, `is_camera` left at its default `False`) differs
from the camera-pose-rule conversion the claim describes. -/
theorem C3_counterexample :
    pipelineFinalPose 1 0 1 0 ≠ cameraRuleFinalPose 1 0 1 0 := by
  intro h
  have h11 := congrFun (congrFun h 1) 1
  have e1 : pipelineFinalPose 1 0 1 0 1 1 = 1 := by
    simp only [pipelineFinalPose, rotOf_homog_mul, transOf_homog_mul, Matrix.mul_one,
      Matrix.mulVec_zero, add_zero]
    rw [convert_mk_false .UNITY .OPEN3D (by decide)]
    norm_num [Transforms.extrinsics_cw, homog, Transforms.get_coordinate_transform_matrix,
      basis, Matrix.mul_apply, Fin.sum_univ_three, Matrix.diagonal, Matrix.one_apply,
      Matrix.transpose_apply, Matrix.mulVec_zero, Fin.ext_iff]
  have e2 : cameraRuleFinalPose 1 0 1 0 1 1 = -1 := by
    simp only [cameraRuleFinalPose, rotOf_homog_mul, transOf_homog_mul, Matrix.mul_one,
      Matrix.mulVec_zero, add_zero]
    rw [convert_mk_true .UNITY .OPEN3D (by decide)]
    norm_num [Transforms.extrinsics_cw, homog, Transforms.get_coordinate_transform_matrix,
      Transforms.get_camera_basis_matrix, basis, Matrix.mul_apply, Fin.sum_univ_three,
      Matrix.diagonal, Matrix.one_apply, Matrix.transpose_apply, Matrix.mulVec_zero,
      Fin.ext_iff]
  rw [e1, e2] at h11
  norm_num at h11

/-- C3 (amended): the pose the orchestrator passes to the integrator is
`headToWorld · headToCameraOffset` converted Unity→Open3D with the
*generic-pose* rule (`convert_coordinate_system` is called with its
default `is_camera=False`), i.e. rotation `R_conv · R · R_convᵀ` and
position `R_conv · t` — not the camera-pose rule.  The orthogonality
hypotheses delimit the domain on which modelling scipy's
`from_matrix`/`as_quat` round trip as the identity is exact. -/
theorem C3_amended_generic_rule (head_R : Matrix (Fin 3) (Fin 3) ℚ)
    (head_pos : Fin 3 → ℚ) (off_R : Matrix (Fin 3) (Fin 3) ℚ) (off_t : Fin 3 → ℚ)
    (h1 : head_R.transpose * head_R = 1) (h2 : off_R.transpose * off_R = 1) :
    pipelineFinalPose head_R head_pos off_R off_t =
      genericRulePoseSpec head_R head_pos off_R off_t := by
  simp only [pipelineFinalPose, genericRulePoseSpec]
  rw [convert_mk_false .UNITY .OPEN3D (by decide)]
  simp only [Transforms.extrinsics_cw, rotOf_homog_mul, transOf_homog_mul]

/-- Witness for C3 (amended) at identity head pose and offset. -/
theorem C3_amended_generic_rule_witness :
    ((1 : Matrix (Fin 3) (Fin 3) ℚ).transpose * 1 = 1) ∧
      pipelineFinalPose 1 0 1 0 = genericRulePoseSpec 1 0 1 0 :=
  ⟨by simp, C3_amended_generic_rule 1 0 1 0 (by simp) (by simp)⟩

/-- C8: when FOV tangents and a positive resolution are present (and
the tangent sums are nonzero, without which the formulas are undefined
and the Python division raises), the resolved intrinsics are
`fx = width/(left+right)`, `fy = height/(top+bottom)`,
`cx = width·right/(left+right)`, `cy = height·top/(top+bottom)`,
assembled as `[[fx, 0, cx], [0, fy, cy], [0, 0, 1]]`.  The witness
instantiates the claim's concrete case
left = right = top = bottom = 1/2, width = height = 640. -/
theorem C8_intrinsics_from_fov (meta : CameraMeta) (di : DepthInfo)
    (hw : 0 < di.width) (hh : 0 < di.height)
    (hlr : di.fov_right + di.fov_left ≠ 0) (htb : di.fov_top + di.fov_down ≠ 0) :
    get_camera_intrinsics meta (some di) =
      .ok (Matrix.of
        ![![di.width / (di.fov_left + di.fov_right), 0,
            di.width * di.fov_right / (di.fov_left + di.fov_right)],
          ![0, di.height / (di.fov_top + di.fov_down),
            di.height * di.fov_top / (di.fov_top + di.fov_down)],
          ![0, 0, 1]]) := by
  have hfx : di.width / (di.fov_right + di.fov_left) ≠ 0 :=
    div_ne_zero (ne_of_gt hw) hlr
  simp only [get_camera_intrinsics, compute_depth_camera_params,
    if_pos (And.intro hw hh), if_neg hlr, if_neg htb, Except.bind, pure, bind,
    Except.pure, if_neg hfx]
  rw [add_comm di.fov_right di.fov_left]

/-- Witness for C8 at the claim's concrete instance:
left = right = top = bottom = 1/2, width = height = 640 yields
fx = fy = 640, cx = cy = 320. -/
theorem C8_intrinsics_from_fov_witness :
    ((0 : ℚ) < 640) ∧ ((1 : ℚ) / 2 + 1 / 2 ≠ 0) ∧
      get_camera_intrinsics ⟨none, none, none, none⟩
          (some ⟨640, 640, 1/2, 1/2, 1/2, 1/2⟩) =
        .ok (Matrix.of ![![640, 0, 320], ![0, 640, 320], ![0, 0, 1]]) := by
  refine ⟨by norm_num, by norm_num, ?_⟩
  rw [C8_intrinsics_from_fov ⟨none, none, none, none⟩ ⟨640, 640, 1/2, 1/2, 1/2, 1/2⟩
    (by norm_num) (by norm_num) (by norm_num) (by norm_num)]
  refine congrArg Except.ok ?_
  ext i j
  fin_cases i <;> fin_cases j <;> norm_num

/-- Counterexample to C2: `near = far = 1` is a "near > 0, far finite"
input in the claim's range, but `compute_ndc_to_linear_depth_params`
divides by `far - near = 0.0`, a Python-float `ZeroDivisionError`, so
`convert_depth_to_linear` raises instead of returning a buffer of
finite non-negative entries. -/
theorem C2_counterexample :
    convert_depth_to_linear ⟨[1], .float64, [.fin (1/2)]⟩ (.fin 1) (.fin 1)
      = .error .zeroDivisionError := by
  norm_num [convert_depth_to_linear, compute_ndc_to_linear_depth_params, PyFloat.isinf,
    PyFloat.ltB, PyFloat.sub, PyFloat.add, PyFloat.neg, PyFloat.mul, PyFloat.pyDiv,
    bind, Except.bind]

/-- The coefficient computation succeeds whenever `far` is not the
finite value equal to `near`. -/
theorem params_ok (n : ℚ) (far : PyFloat) (hne : far ≠ PyFloat.fin n) :
    ∃ p, compute_ndc_to_linear_depth_params (.fin n) far = .ok p := by
  cases far with
  | nan =>
    refine ⟨(.nan, .nan), ?_⟩
    simp [compute_ndc_to_linear_depth_params, PyFloat.isinf, PyFloat.ltB, PyFloat.sub,
      PyFloat.add, PyFloat.neg, PyFloat.mul, PyFloat.pyDiv, PyFloat.npDiv, bind,
      Except.bind, pure, Except.pure]
  | pinf =>
    refine ⟨(.fin ((-2) * n), .fin (-1)), ?_⟩
    simp [compute_ndc_to_linear_depth_params, PyFloat.isinf, PyFloat.mul]
  | ninf =>
    refine ⟨(.fin ((-2) * n), .fin (-1)), ?_⟩
    simp [compute_ndc_to_linear_depth_params, PyFloat.isinf, PyFloat.mul]
  | fin q =>
    by_cases hlt : q < n
    · refine ⟨(.fin ((-2) * n), .fin (-1)), ?_⟩
      simp [compute_ndc_to_linear_depth_params, PyFloat.isinf, PyFloat.ltB, hlt,
        PyFloat.mul]
    · have hqn : q + -n ≠ 0 := fun hz => hne (by
        have : q = n := by linarith [hz]
        rw [this])
      refine ⟨(.fin ((-2) * q * n / (q + -n)), .fin (-(q + n) / (q + -n))), ?_⟩
      simp [compute_ndc_to_linear_depth_params, PyFloat.isinf, PyFloat.ltB, hlt,
        PyFloat.sub, PyFloat.add, PyFloat.neg, PyFloat.mul, PyFloat.pyDiv,
        PyFloat.npDiv, hqn, bind, Except.bind, pure, Except.pure]

/-- The output sanitization makes every entry finite and ≥ 0. -/
theorem out_entry_ok (v : PyFloat) :
    entryFiniteNonneg (negClamp (nanToNumOut v)) = true := by
  cases v with
  | nan => simp [nanToNumOut, negClamp, PyFloat.ltB, entryFiniteNonneg]
  | pinf => simp [nanToNumOut, negClamp, PyFloat.ltB, entryFiniteNonneg]
  | ninf => simp [nanToNumOut, negClamp, PyFloat.ltB, entryFiniteNonneg]
  | fin q =>
    by_cases hq : q < 0
    · simp [nanToNumOut, negClamp, PyFloat.ltB, entryFiniteNonneg, hq]
    · simp [nanToNumOut, negClamp, PyFloat.ltB, entryFiniteNonneg, hq, le_of_not_lt hq]

/-- The output sanitization never leaves a NaN or ±Inf entry. -/
theorem out_entry_finite (v : PyFloat) :
    PyFloat.isFiniteB (negClamp (nanToNumOut v)) = true := by
  cases v with
  | nan => simp [nanToNumOut, negClamp, PyFloat.ltB, PyFloat.isFiniteB]
  | pinf => simp [nanToNumOut, negClamp, PyFloat.ltB, PyFloat.isFiniteB]
  | ninf => simp [nanToNumOut, negClamp, PyFloat.ltB, PyFloat.isFiniteB]
  | fin q =>
    by_cases hq : q < 0
    · simp [nanToNumOut, negClamp, PyFloat.ltB, PyFloat.isFiniteB, hq]
    · simp [nanToNumOut, negClamp, PyFloat.ltB, PyFloat.isFiniteB, hq]

/-- C2 (amended): for every input buffer — entries may be NaN, ±Inf,
negative or > 1 — every finite `near > 0`, and every `far` that is
infinite or finite but different from `near` (at `far = near` the
coefficient computation raises `ZeroDivisionError`, see the
counterexample), `convert_depth_to_linear` returns a buffer and every
returned entry is finite and ≥ 0. -/
theorem C2_amended_total_safe (arr : NpArray) (n : ℚ) (hn : 0 < n) (far : PyFloat)
    (hfar : far ≠ PyFloat.nan) (hne : far ≠ PyFloat.fin n) :
    resultEntriesOk (convert_depth_to_linear arr (.fin n) far) = true := by
  obtain ⟨⟨x, y⟩, hxy⟩ := params_ok n far hne
  simp only [convert_depth_to_linear, hxy, resultEntriesOk, to_linear_depth,
    List.all_eq_true]
  intro v hv
  simp only [List.map_map, List.mem_map, Function.comp] at hv
  obtain ⟨w, _, rfl⟩ := hv
  exact out_entry_ok _

/-- Witness for C2 (amended) on the spec's raw-value test set
{NaN, +Inf, -Inf, -5, 0, 0.5, 1, 5} with near = 1, far = +Inf. -/
theorem C2_amended_total_safe_witness :
    ((0 : ℚ) < 1) ∧ (PyFloat.pinf ≠ PyFloat.nan) ∧ (PyFloat.pinf ≠ PyFloat.fin 1) ∧
      resultEntriesOk (convert_depth_to_linear
        ⟨[8], .float64,
          [.nan, .pinf, .ninf, .fin (-5), .fin 0, .fin (1/2), .fin 1, .fin 5]⟩
        (.fin 1) .pinf) = true :=
  ⟨by decide, by decide, by decide,
    C2_amended_total_safe _ 1 one_pos .pinf (by decide) (by decide)⟩

/-- Counterexample to C7: with coefficients from (near, far) = (1, +∞)
— `(x, y) = (-2, -1)` — and the clamped raw sample
`1 - 1/2000000000`, the denominator `ndc + y = -1/1000000000` is
near zero (|denom| < 1e-6) but NOT exactly zero, and the linearized
sample is `2000000000`, not `0`:  the `where=denom != 0` guard zeroes
only exact-zero denominators. -/
theorem C7_counterexample :
    ndcDenom (.fin (1 - 1/2000000000)) (.fin (-1)) = .fin (-(1/1000000000)) ∧
      (-(1/1000000000) : ℚ) ≠ 0 ∧ (|(-(1/1000000000) : ℚ)| < 1/1000000) ∧
      convert_depth_to_linear ⟨[1], .float64, [.fin (1 - 1/2000000000)]⟩ (.fin 1) .pinf
        = .ok ⟨[1], .float32, [.fin 2000000000]⟩ ∧
      PyFloat.fin (2000000000 : ℚ) ≠ .fin 0 := by
  refine ⟨?_, by norm_num, by norm_num [abs], ?_, by norm_num⟩
  · norm_num [ndcDenom, PyFloat.add, PyFloat.sub, PyFloat.neg, PyFloat.mul]
  · norm_num [convert_depth_to_linear, compute_ndc_to_linear_depth_params,
      PyFloat.isinf, PyFloat.mul, to_linear_depth, nanToNumIn, clipUnit,
      ndcDenom, PyFloat.add, PyFloat.sub, PyFloat.neg, npDivWhere, PyFloat.npDiv,
      nanToNumOut, negClamp, PyFloat.ltB]

/-- C7 (amended): in per-sample linearization with coefficients (x, y)
successfully produced from a near/far pair, the division yields 0
exactly when the denominator `ndc + y` is exactly zero (near-zero
nonzero denominators divide normally, see the counterexample), and
after final sanitization the computation yields neither NaN nor ±Inf
for any raw sample. -/
theorem C7_amended_exact_zero (arr : NpArray) (near far x y : PyFloat)
    (h : compute_ndc_to_linear_depth_params near far = .ok (x, y)) (v : PyFloat)
    (hz : ndcDenom v y = .fin 0) :
    npDivWhere x (ndcDenom v y) = .fin 0 ∧
      resultEntriesFinite (convert_depth_to_linear arr near far) = true := by
  constructor
  · rw [hz]
    simp [npDivWhere]
  · simp only [convert_depth_to_linear, h, resultEntriesFinite, to_linear_depth,
      List.all_eq_true]
    intro w hw
    simp only [List.map_map, List.mem_map, Function.comp] at hw
    obtain ⟨u, _, rfl⟩ := hw
    exact out_entry_finite _

/-- Witness for C7 (amended): (near, far) = (1, +∞) gives
`(x, y) = (-2, -1)`, and the raw sample 1 hits an exactly-zero
denominator, producing the entry 0. -/
theorem C7_amended_exact_zero_witness :
    compute_ndc_to_linear_depth_params (.fin 1) .pinf = .ok (.fin (-2), .fin (-1)) ∧
      ndcDenom (.fin 1) (.fin (-1)) = .fin 0 ∧
      npDivWhere (.fin (-2)) (ndcDenom (.fin 1) (.fin (-1))) = .fin 0 ∧
      resultEntriesFinite (convert_depth_to_linear ⟨[1], .float64, [.fin 1]⟩
        (.fin 1) .pinf) = true := by
  have hp : compute_ndc_to_linear_depth_params (.fin 1) .pinf
      = .ok (.fin (-2), .fin (-1)) := by
    norm_num [compute_ndc_to_linear_depth_params, PyFloat.isinf, PyFloat.mul]
  have hz : ndcDenom (.fin 1) (.fin (-1)) = .fin 0 := by
    norm_num [ndcDenom, PyFloat.add, PyFloat.sub, PyFloat.neg, PyFloat.mul]
  have hmain := C7_amended_exact_zero ⟨[1], .float64, [.fin 1]⟩ (.fin 1) .pinf
    (.fin (-2)) (.fin (-1)) hp (.fin 1) hz
  exact ⟨hp, hz, hmain.1, hmain.2⟩

/-- Counterexample to C10: at (near, far) = (2, 2) the coefficient
computation raises `ZeroDivisionError`, so `convert_depth_to_linear`
returns no array at all — in particular not one of the input's shape
with dtype float32. -/
theorem C10_counterexample :
    resultShapeFloat32 (convert_depth_to_linear
        ⟨[2, 2], .float64, [.fin 0, .fin 0, .fin 0, .fin 0]⟩ (.fin 2) (.fin 2))
      [2, 2] = false := by
  norm_num [resultShapeFloat32, convert_depth_to_linear,
    compute_ndc_to_linear_depth_params, PyFloat.isinf, PyFloat.ltB, PyFloat.sub,
    PyFloat.add, PyFloat.neg, PyFloat.mul, PyFloat.pyDiv, bind, Except.bind]

/-- C10 (amended): for every input buffer (any shape, dtype and values)
and every (near, far) pair for which the coefficient computation does
not raise, `convert_depth_to_linear` returns an array with exactly the
input's shape and with dtype float32. -/
theorem C10_amended_shape_dtype (arr : NpArray) (near far x y : PyFloat)
    (h : compute_ndc_to_linear_depth_params near far = .ok (x, y)) :
    resultShapeFloat32 (convert_depth_to_linear arr near far) arr.shape = true := by
  simp [convert_depth_to_linear, h, resultShapeFloat32, to_linear_depth]

/-- Witness for C10 (amended) on a 2×2 float64 buffer with
(near, far) = (1, +∞). -/
theorem C10_amended_shape_dtype_witness :
    resultShapeFloat32 (convert_depth_to_linear
        ⟨[2, 2], .float64, [.fin 0, .nan, .fin (1/2), .fin 1]⟩ (.fin 1) .pinf)
      [2, 2] = true :=
  C10_amended_shape_dtype ⟨[2, 2], .float64, [.fin 0, .nan, .fin (1/2), .fin 1]⟩
    (.fin 1) .pinf (.fin (-2)) (.fin (-1))
    (by norm_num [compute_ndc_to_linear_depth_params, PyFloat.isinf, PyFloat.mul])

/-- The loop body never touches the progress list. -/
theorem stepUnit_progress (u : FrameUnit) (i : Nat) (st : RunState) :
    (stepUnit u i st).progress = st.progress := by
  unfold stepUnit
  split_ifs <;> rfl

/-- The loop body increments `failed_count` exactly on a missing
payload. -/
theorem stepUnit_failed (u : FrameUnit) (i : Nat) (st : RunState) :
    (stepUnit u i st).failed =
      if u.payload = false then st.failed + 1 else st.failed := by
  unfold stepUnit
  split_ifs <;> rfl

/-- The loop body appends the index to the integrate list exactly when
`integratesAt` holds. -/
theorem stepUnit_integrated (u : FrameUnit) (i : Nat) (st : RunState) :
    (stepUnit u i st).integrated =
      if integratesAt u i = true then st.integrated ++ [i] else st.integrated := by
  unfold stepUnit integratesAt
  split_ifs <;> simp_all

/-- Counterexample to C6: on an empty frame list the orchestrator does
not fail early — it proceeds to mesh extraction and returns a result. -/
theorem C6_counterexample :
    (run_reconstruction (fun _ => false) []).extracted = true ∧
      (run_reconstruction (fun _ => false) []).result ≠ none := by
  decide

/-- C6 (amended): with an empty frame list, `integrate_frame` is never
called, but there is no Initializing→Failed transition: the run
proceeds to mesh extraction and returns a result with zero processed
and zero failed frames. -/
theorem C6_amended_empty_runs_extraction :
    (run_reconstruction (fun _ => false) []).integrated = [] ∧
      (run_reconstruction (fun _ => false) []).extracted = true ∧
      (run_reconstruction (fun _ => false) []).result = some (0, 0) := by
  decide

/-- Counterexample to C9: a two-frame run delivers the values 50 and
100 to the progress callback — integer percentages, and 50 is not in
the interval [0, 1]. -/
theorem C9_counterexample :
    (run_reconstruction (fun _ => false)
        [⟨true, [.fin 0]⟩, ⟨true, [.fin 0]⟩]).progress = [50, 100] ∧
      ¬((50 : ℕ) ≤ 1) := by
  decide

/-- `int((i+1)/total*100)` is at most 100 whenever `i + 1 ≤ total`. -/
theorem pct_le_100 (i total : Nat) (h : i + 1 ≤ total) : pct i total ≤ 100 := by
  unfold pct
  have h0 : 0 < total := by omega
  calc (i + 1) * 100 / total ≤ total * 100 / total :=
        Nat.div_le_div_right (Nat.mul_le_mul_right 100 h)
    _ = 100 := Nat.mul_div_cancel_left 100 h0

/-- Every progress value the loop emits is ≤ 100, given that the start
index plus the number of remaining units is within the total. -/
theorem runFrames_progress_le (cancel : Nat → Bool) (total : Nat) :
    ∀ (units : List FrameUnit) (idx : Nat) (st : RunState),
      idx + units.length ≤ total → (∀ v ∈ st.progress, v ≤ 100) →
      ∀ v ∈ (runFrames cancel total units idx st).1.progress, v ≤ 100 := by
  intro units
  induction units with
  | nil =>
    intro idx st _ hst v hv
    simp only [runFrames] at hv
    exact hst v hv
  | cons u rest ih =>
    intro idx st hlen hst v hv
    simp only [runFrames] at hv
    by_cases hc : cancel idx = true
    · rw [if_pos hc] at hv
      exact hst v hv
    · rw [if_neg hc] at hv
      refine ih (idx + 1) _ (by simp at hlen; omega) ?_ v hv
      intro w hw
      rw [stepUnit_progress] at hw
      rcases List.mem_append.mp hw with h | h
      · exact hst w h
      · rcases List.mem_singleton.mp h with rfl
        exact pct_le_100 idx total (by simp at hlen; omega)

/-- C9 (amended): every value delivered to the progress callback during
a run is `int((i+1)/total·100)` — a natural number (hence ≥ 0) and at
most 100, i.e. an integer percentage in [0, 100], not a fraction in
[0, 1]. -/
theorem C9_amended_progress_percent (cancel : Nat → Bool) (frames : List FrameUnit)
    (v : ℕ) (hv : v ∈ (run_reconstruction cancel frames).progress) : v ≤ 100 := by
  have hmain := runFrames_progress_le cancel frames.length frames 0 initState
    (by simp) (by simp [initState])
  simp only [run_reconstruction] at hv
  split at hv <;> exact hmain v hv

/-- Witness for C9 (amended): a one-frame run emits the value 100. -/
theorem C9_amended_progress_percent_witness :
    (100 ∈ (run_reconstruction (fun _ => false) [⟨true, [.fin 0]⟩]).progress) ∧
      (100 : ℕ) ≤ 100 :=
  ⟨by decide,
    C9_amended_progress_percent (fun _ => false) [⟨true, [.fin 0]⟩] 100 (by decide)⟩

/-- Mapping over `range (k+1)` peels off the head. -/
theorem range_map_shift {α : Type} (f : ℕ → α) (k : ℕ) :
    (List.range (k + 1)).map f = f 0 :: (List.range k).map fun j => f (j + 1) := by
  rw [List.range_succ_eq_map]
  simp [List.map_map, Function.comp]

/-- Appending a mapped `range (k+1)` equals appending the head first. -/
theorem append_range_succ {α : Type} (l : List α) (f : ℕ → α) (k : ℕ) :
    l ++ (List.range (k + 1)).map f =
      (l ++ [f 0]) ++ (List.range k).map fun j => f (j + 1) := by
  rw [range_map_shift]
  simp

/-- If the cancel predicate is false at the polls for the first `k`
units and true at the poll for unit `k`, the loop processes exactly the
first `k` (all-valid) units and returns with the cancelled flag. -/
theorem runFrames_cancel_eq (cancel : Nat → Bool) (total : Nat) :
    ∀ (units : List FrameUnit) (k idx : Nat) (st : RunState),
      (∀ j, j < k → cancel (idx + j) = false) → cancel (idx + k) = true →
      k < units.length →
      (∀ u ∈ units, u.payload = true ∧ poseFinite u.finalPose = true) →
      runFrames cancel total units idx st =
        ({ integrated := st.integrated ++ (List.range k).map (fun j => idx + j),
           processed := st.processed + k,
           failed := st.failed,
           progress := st.progress ++ (List.range k).map fun j => pct (idx + j) total },
         true) := by
  intro units
  induction units with
  | nil =>
    intro k idx st _ _ hk _
    simp at hk
  | cons u rest ih =>
    intro k idx st hbef hc hk hval
    match k with
    | 0 =>
      have hcidx : cancel idx = true := by simpa using hc
      obtain ⟨a, b, c, d⟩ := st
      simp [runFrames, hcidx]
    | k + 1 =>
      have hc0 : cancel idx = false := by simpa using hbef 0 (Nat.succ_pos k)
      simp only [runFrames, hc0]
      rw [if_neg (by simp)]
      have hu := hval u (List.mem_cons_self u rest)
      have hstep : stepUnit u idx { st with progress := st.progress ++ [pct idx total] } =
          { integrated := st.integrated ++ [idx], processed := st.processed + 1,
            failed := st.failed, progress := st.progress ++ [pct idx total] } := by
        unfold stepUnit
        rw [if_neg (by simp [hu.1]), if_neg (by simp [hu.2])]
      rw [hstep]
      rw [ih k (idx + 1)
        { integrated := st.integrated ++ [idx], processed := st.processed + 1,
          failed := st.failed, progress := st.progress ++ [pct idx total] }
        (fun j hj => by
          rw [show idx + 1 + j = idx + (j + 1) by omega]
          exact hbef (j + 1) (by omega))
        (by rw [show idx + 1 + k = idx + (k + 1) by omega]; exact hc)
        (by simpa using hk)
        (fun w hw => hval w (List.mem_cons_of_mem u hw))]
      refine congrArg₂ Prod.mk ?_ rfl
      have hmap1 : (List.range k).map (fun j => idx + 1 + j)
          = (List.range k).map fun j => idx + (j + 1) :=
        List.map_congr_left fun j _ => by omega
      have hmap2 : (List.range k).map (fun j => pct (idx + 1 + j) total)
          = (List.range k).map fun j => pct (idx + (j + 1)) total :=
        List.map_congr_left fun j _ => by rw [show idx + 1 + j = idx + (j + 1) by omega]
      rw [hmap1, hmap2]
      rw [append_range_succ st.integrated (fun j => idx + j) k,
        append_range_succ st.progress (fun j => pct (idx + j) total) k]
      simp [Nat.add_assoc, Nat.add_comm 1 k]

/-- C5: whenever the cancellation predicate first returns true at the
poll before frame `i` (every unit being processable), the orchestrator
integrates exactly frames `0..i-1` and no later ones, never calls mesh
extraction, and returns no result (`None`, the Cancelled outcome). -/
theorem C5_cancellation_boundary (cancel : Nat → Bool) (frames : List FrameUnit)
    (i : Nat) (hi : i < frames.length)
    (hbef : ∀ j, j < i → cancel j = false) (hc : cancel i = true)
    (hval : ∀ u ∈ frames, u.payload = true ∧ poseFinite u.finalPose = true) :
    (run_reconstruction cancel frames).integrated = List.range i ∧
      (run_reconstruction cancel frames).extracted = false ∧
      (run_reconstruction cancel frames).result = none := by
  have h := runFrames_cancel_eq cancel frames.length frames i 0 initState
    (fun j hj => by simpa using hbef j hj) (by simpa using hc) hi hval
  simp only [run_reconstruction]
  rw [h]
  simp [initState]

/-- Witness for C5: cancellation firing at the poll before frame 1 of a
three-frame run integrates exactly frame 0, skips extraction and
returns no result. -/
theorem C5_cancellation_boundary_witness :
    ((fun j => decide (j = 1)) 1 = true) ∧
      ((run_reconstruction (fun j => decide (j = 1))
          [⟨true, [.fin 0]⟩, ⟨true, [.fin 0]⟩, ⟨true, [.fin 0]⟩]).integrated
          = List.range 1 ∧
        (run_reconstruction (fun j => decide (j = 1))
          [⟨true, [.fin 0]⟩, ⟨true, [.fin 0]⟩, ⟨true, [.fin 0]⟩]).extracted = false ∧
        (run_reconstruction (fun j => decide (j = 1))
          [⟨true, [.fin 0]⟩, ⟨true, [.fin 0]⟩, ⟨true, [.fin 0]⟩]).result = none) :=
  ⟨by decide,
    C5_cancellation_boundary (fun j => decide (j = 1))
      [⟨true, [.fin 0]⟩, ⟨true, [.fin 0]⟩, ⟨true, [.fin 0]⟩] 1
      (by decide) (by decide) (by decide) (by decide)⟩

/-- In a never-cancelled run the final `failed_count` is the starting
count plus the number of units with a missing payload — pose-validation
rejections contribute nothing. -/
theorem runFrames_noCancel_failed (cancel : Nat → Bool) (total : Nat)
    (hnc : ∀ j, cancel j = false) :
    ∀ (units : List FrameUnit) (idx : Nat) (st : RunState),
      (runFrames cancel total units idx st).1.failed
        = st.failed + (units.filter fun u => !u.payload).length := by
  intro units
  induction units with
  | nil =>
    intro idx st
    simp [runFrames]
  | cons u rest ih =>
    intro idx st
    simp only [runFrames, hnc idx]
    rw [if_neg (by simp)]
    rw [ih]
    rw [stepUnit_failed]
    by_cases hp : u.payload = false
    · simp [List.filter_cons, hp]
      omega
    · simp [List.filter_cons, hp]

/-- In a never-cancelled run, index `i` is in the integrate list iff it
was there initially or the corresponding unit reaches `integrate_frame`
at its loop index. -/
theorem runFrames_noCancel_integrated_mem (cancel : Nat → Bool) (total : Nat)
    (hnc : ∀ j, cancel j = false) :
    ∀ (units : List FrameUnit) (idx : Nat) (st : RunState) (i : Nat),
      (i ∈ (runFrames cancel total units idx st).1.integrated ↔
        i ∈ st.integrated ∨ ∃ j, ∃ hj : j < units.length,
          i = idx + j ∧ integratesAt (units.get ⟨j, hj⟩) (idx + j) = true) := by
  intro units
  induction units with
  | nil =>
    intro idx st i
    simp [runFrames]
  | cons u rest ih =>
    intro idx st i
    simp only [runFrames, hnc idx]
    rw [if_neg (by simp)]
    rw [ih]
    rw [stepUnit_integrated]
    constructor
    · rintro (hmem | ⟨j, hj, rfl, hint⟩)
      · by_cases hu : integratesAt u idx = true
        · rw [if_pos hu] at hmem
          rcases List.mem_append.mp hmem with h | h
          · exact Or.inl h
          · rcases List.mem_singleton.mp h with rfl
            refine Or.inr ⟨0, by simp, by omega, ?_⟩
            simpa using hu
        · rw [if_neg hu] at hmem
          exact Or.inl hmem
      · refine Or.inr ⟨j + 1, by simp; omega, by omega, ?_⟩
        have : idx + (j + 1) = idx + 1 + j := by omega
        rw [this]
        exact hint
    · rintro (hmem | ⟨j, hj, rfl, hint⟩)
      · by_cases hu : integratesAt u idx = true
        · rw [if_pos hu]
          exact Or.inl (List.mem_append.mpr (Or.inl hmem))
        · rw [if_neg hu]
          exact Or.inl hmem
      · match j with
        | 0 =>
          have hu : integratesAt u idx = true := by simpa using hint
          rw [if_pos hu]
          refine Or.inl (List.mem_append.mpr (Or.inr ?_))
          simp
        | j + 1 =>
          refine Or.inr ⟨j, by simp at hj; omega, by omega, ?_⟩
          have : idx + 1 + j = idx + (j + 1) := by omega
          rw [this]
          exact hint

/-- Counterexample to C4: (a) a unit whose converted pose contains NaN
at loop index 0 — inside the debug-checked subset — is skipped but the
failure counter stays 0, contradicting "the failure counter is
incremented"; (b) in a 22-frame run whose unit at loop index 21 — which
satisfies neither `i < 20` nor `i % 10 == 0` — has a NaN pose, index 21
IS passed to `integrate_frame`, contradicting "never passed to
integrate_frame ... applied to every frame". -/
theorem C4_counterexample :
    ((run_reconstruction (fun _ => false)
        [⟨true, List.replicate 15 (PyFloat.fin 0) ++ [.nan]⟩]).failed = 0 ∧
      (run_reconstruction (fun _ => false)
        [⟨true, List.replicate 15 (PyFloat.fin 0) ++ [.nan]⟩]).integrated = []) ∧
      21 ∈ (run_reconstruction (fun _ => false)
        (List.replicate 21 (⟨true, List.replicate 16 (PyFloat.fin 0)⟩ : FrameUnit) ++
          [⟨true, List.replicate 15 (PyFloat.fin 0) ++ [.nan]⟩])).integrated := by
  decide

/-- C4 (amended): in a never-cancelled run, (1) the failure counter
counts exactly the units with a missing payload — a NaN/Inf converted
pose never increments it; and (2) a unit is passed to `integrate_frame`
iff its payload is present and it is not rejected by the pose
validation, which fires only on the debug subset of loop indices
(`i < 20 or i % 10 == 0`): a NaN/Inf pose at any other index is
integrated unvalidated, and at a checked index it is skipped silently
while processing continues. -/
theorem C4_amended_validation_subset (cancel : Nat → Bool) (hnc : ∀ j, cancel j = false)
    (frames : List FrameUnit) (i : Nat) (hi : i < frames.length) :
    (run_reconstruction cancel frames).failed
        = (frames.filter fun u => !u.payload).length ∧
      ((i ∈ (run_reconstruction cancel frames).integrated) ↔
        integratesAt (frames.get ⟨i, hi⟩) i = true) := by
  have hf := runFrames_noCancel_failed cancel frames.length hnc frames 0 initState
  have hm := runFrames_noCancel_integrated_mem cancel frames.length hnc frames 0
    initState i
  constructor
  · simp only [run_reconstruction]
    split <;> simpa [initState] using hf
  · simp only [run_reconstruction]
    split <;>
      · rw [show (⟨_, _, _, _⟩ : RunState).integrated
            = (runFrames cancel frames.length frames 0 initState).1.integrated from rfl]
        rw [hm]
        simp only [initState, List.not_mem_nil, false_or]
        constructor
        · rintro ⟨j, hj, rfl, hint⟩
          simpa using hint
        · intro hint
          exact ⟨i, hi, by omega, by simpa using hint⟩

/-- Witness for C4 (amended): a two-unit run — unit 0 with missing
payload, unit 1 with a NaN pose at a checked index — has failure count
1 (only the missing payload) and does not integrate unit 1. -/
theorem C4_amended_validation_subset_witness :
    (1 < 2) ∧
      ((run_reconstruction (fun _ => false)
          [⟨false, [PyFloat.fin 0]⟩, ⟨true, [PyFloat.nan]⟩]).failed
          = ([(⟨false, [PyFloat.fin 0]⟩ : FrameUnit), ⟨true, [PyFloat.nan]⟩].filter
              fun u => !u.payload).length ∧
        ((1 ∈ (run_reconstruction (fun _ => false)
            [⟨false, [PyFloat.fin 0]⟩, ⟨true, [PyFloat.nan]⟩]).integrated) ↔
          integratesAt ⟨true, [PyFloat.nan]⟩ 1 = true)) :=
  ⟨by decide,
    C4_amended_validation_subset (fun _ => false) (fun _ => rfl)
      [⟨false, [PyFloat.fin 0]⟩, ⟨true, [PyFloat.nan]⟩] 1 (by decide)⟩

end Quest
